import Mathlib

/-!
Verification development for the FlowStateAI event capture and log analysis
pipeline (`src/data_analysis.py` and `src/data_collector.py`).

Modelling conventions:
* Python floats are modelled as exact rationals (`ℚ`); numeric literals in the
  source (`0.1`, `5`, `50_000`) are taken at their exact decimal value.
* JSON values decoded by `json.loads` are modelled by the inductive `JVal`.
* A line of the log file is modelled by `Line`: blank after stripping,
  non-blank but failing to decode, or decoding to a `JVal`.
* Python exceptions that `analyze_log` does not catch are modelled by the
  `Except PyError` monad (`AttributeError` from calling `.get` on a non-dict,
  `TypeError` from using an unhashable dict key).
* Python `dict`s are modelled as association lists with Python's key
  equality (`True == 1 == 1.0`, etc.) and insertion-order semantics.
-/

/-- JSON values as produced by `json.loads`: null, booleans, numbers
(modelled as rationals), strings, arrays and objects. -/
inductive JVal : Type where
  | null : JVal
  | bool : Bool → JVal
  | num : ℚ → JVal
  | str : String → JVal
  | arr : List JVal → JVal
  | obj : List (String × JVal) → JVal

/-- Uncaught Python exceptions that can escape `analyze_log`'s per-line
processing: `AttributeError` (calling `.get` on a non-dict value) and
`TypeError` (hashing an unhashable value as a dict key). -/
inductive PyError : Type where
  | attributeError : PyError
  | typeError : PyError
deriving DecidableEq

/-- One physical line of a log file, as seen by `analyze_log`'s loop after
`line.strip()`: blank, non-blank but rejected by `json.loads`
(`json.JSONDecodeError`), or successfully decoded to a JSON value. -/
inductive Line : Type where
  | blank : Line
  | invalid : Line
  | valid : JVal → Line

/-- Numeric view of a JSON scalar for Python `==` on dict keys: Python treats
`True == 1 == 1.0` and `False == 0`, so booleans and numbers compare through
their numeric value. -/
def asNum : JVal → Option ℚ
  | .bool b => some (if b then 1 else 0)
  | .num q => some q
  | _ => none

/-- Python `==` between hashable JSON scalars (used for dict keys and for the
`event_type` comparisons in the source): numbers and booleans compare
numerically, strings by content, `None` only to itself. -/
def keyEq (a b : JVal) : Bool :=
  match asNum a, asNum b with
  | some x, some y => x == y
  | some _, none => false
  | none, some _ => false
  | none, none =>
    match a, b with
    | .null, .null => true
    | .str s, .str t => s == t
    | _, _ => false

/-- Whether a JSON value is hashable in Python (usable as a dict key):
everything except lists and dicts. -/
def hashableJ : JVal → Bool
  | .arr _ => false
  | .obj _ => false
  | _ => true

/-- Python `dict.get(k, default)` on an association list (first matching key;
`json.loads` never produces duplicate keys, last-wins collapses them). -/
def objGetD (kvs : List (String × JVal)) (k : String) (d : JVal) : JVal :=
  match kvs with
  | [] => d
  | (k', v) :: t => if k' = k then v else objGetD t k d

/-- Lookup in the `event_counts` dict (keys are arbitrary hashable JSON
values because of `setdefault(event_type, 0)`). -/
def lookupKey (c : List (JVal × ℕ)) (q : JVal) : Option ℕ :=
  match c with
  | [] => none
  | (k, n) :: t => if keyEq k q then some n else lookupKey t q

/-- Python `dict.setdefault(q, d)`: leaves the dict unchanged when the key is
present, otherwise appends the key with the default value. -/
def setdefaultKey (c : List (JVal × ℕ)) (q : JVal) (d : ℕ) : List (JVal × ℕ) :=
  match c with
  | [] => [(q, d)]
  | (k, n) :: t => if keyEq k q then (k, n) :: t else (k, n) :: setdefaultKey t q d

/-- Python `dict[q] += 1` on the first entry whose key equals `q` (in the
source this is always guarded by membership, so the missing-key case never
arises). -/
def incrKey (c : List (JVal × ℕ)) (q : JVal) : List (JVal × ℕ) :=
  match c with
  | [] => []
  | (k, n) :: t => if keyEq k q then (k, n + 1) :: t else (k, n) :: incrKey t q

/-- Python `q in dict` membership test. -/
def memKey (c : List (JVal × ℕ)) (q : JVal) : Bool :=
  (lookupKey c q).isSome

/-- Numeric value of a list of decimal digit characters. -/
def natOfDigits (ds : List Char) : ℕ :=
  ds.foldl (fun n c => 10 * n + (c.toNat - 48)) 0

/-- ASCII whitespace accepted around a Python numeric string literal. -/
def isPySpace (c : Char) : Bool :=
  c = ' ' || c = '\t' || c = '\n' || c = '\r'

/-- Strip leading and trailing whitespace from a character list. -/
def trimChars (cs : List Char) : List Char :=
  ((cs.dropWhile isPySpace).reverse.dropWhile isPySpace).reverse

/-- Modelled from Python's builtin `float(str)` (not repository code),
restricted to plain decimal literals: optional surrounding ASCII whitespace,
optional sign, digits with at most one decimal point and at least one digit.
Forms outside this subset (exponents, `inf`, `nan`, underscores) are treated
as rejected. -/
def pyFloatOfString (s : String) : Option ℚ :=
  let cs := trimChars s.data
  let sc : ℚ × List Char :=
    match cs with
    | '+' :: r => (1, r)
    | '-' :: r => (-1, r)
    | r => (1, r)
  let sign := sc.1
  let body := sc.2
  let ip := body.takeWhile Char.isDigit
  let rest := body.dropWhile Char.isDigit
  match rest with
  | [] => if ip.isEmpty then none else some (sign * natOfDigits ip)
  | '.' :: fp =>
    if fp.all Char.isDigit && (!ip.isEmpty || !fp.isEmpty) then
      some (sign * ((natOfDigits ip : ℚ) + (natOfDigits fp : ℚ) / (10 ^ fp.length)))
    else none
  | _ => none

/-- Modelled from Python's builtin `float(value)` on JSON-decoded values:
numbers convert to themselves, booleans to `1.0`/`0.0`, numeric strings via
`pyFloatOfString`; `None`, lists and dicts raise (`none` here means the call
raises `TypeError`/`ValueError`). -/
def pyFloat : JVal → Option ℚ
  | .num q => some q
  | .bool b => some (if b then 1 else 0)
  | .str s => pyFloatOfString s
  | _ => none

/-- Embedding of `_safe_number` (src/data_analysis.py lines 103-110): `None`
returns `None`; otherwise `float(value)`, with `TypeError`/`ValueError`
mapped to `None`. -/
def safeNumber (v : JVal) : Option ℚ :=
  match v with
  | .null => none
  | v => pyFloat v

/-- Embedding of `EXTREME_VELOCITY_THRESHOLD` (src/data_analysis.py line 18). -/
def extremeVelocityThreshold : ℚ := 50000

/-- The `stats` dictionary built by `analyze_log` (src/data_analysis.py lines
31-53), with the three anomaly counters and three example lists flattened
into fields. `event_counts` keys are `JVal` because `setdefault(event_type,
0)` inserts whatever hashable value the event carried. -/
structure Stats : Type where
  total_lines : ℕ
  valid_json : ℕ
  invalid_json : ℕ
  event_counts : List (JVal × ℕ)
  timestamp_order : ℕ
  extreme_velocity : ℕ
  negative_dwell_or_flight : ℕ
  ex_timestamp_order : List (ℚ × ℚ)
  ex_extreme_velocity : List (Option ℚ × ℚ)
  ex_negative_dwell_or_flight : List (String × ℚ)

/-- Initial value of the `stats` dictionary: six fixed event-count buckets,
all counters zero, all example lists empty. -/
def initStats : Stats :=
  { total_lines := 0
    valid_json := 0
    invalid_json := 0
    event_counts :=
      [(.str "key_press", 0), (.str "key_release", 0), (.str "mouse_move", 0),
       (.str "mouse_click", 0), (.str "mouse_scroll", 0), (.str "other", 0)]
    timestamp_order := 0
    extreme_velocity := 0
    negative_dwell_or_flight := 0
    ex_timestamp_order := []
    ex_extreme_velocity := []
    ex_negative_dwell_or_flight := [] }

/-- The timestamp-ordering check and `previous_ts` update (src/data_analysis.py
lines 70-75): an anomaly is recorded when both the current and remembered
timestamps exist and current < previous; the remembered value advances only
when the current line supplies a timestamp. -/
def orderCheck (s : Stats) (prev : Option ℚ) (ts : Option ℚ) : Stats × Option ℚ :=
  let s' :=
    match ts, prev with
    | some t, some p =>
      if t < p then
        { s with timestamp_order := s.timestamp_order + 1
                 ex_timestamp_order := s.ex_timestamp_order ++ [(p, t)] }
      else s
    | _, _ => s
  let prev' := match ts with | some t => some t | none => prev
  (s', prev')

/-- The event-type classification (src/data_analysis.py lines 77-82):
`setdefault(event_type, 0)` followed by a membership test; after the
`setdefault` the key is always present, so the `else` branch incrementing
`other` is dead code. An unhashable `event_type` makes `setdefault` raise
`TypeError`. -/
def countEvent (s : Stats) (et : JVal) : Except PyError Stats :=
  if hashableJ et then
    let counts := setdefaultKey s.event_counts et 0
    if memKey counts et then
      .ok { s with event_counts := incrKey counts et }
    else
      .ok { s with event_counts := incrKey counts (.str "other") }
  else
    .error .typeError

/-- The extreme-velocity check (src/data_analysis.py lines 85-89), run only
for `event_type == "mouse_move"`; calling `.get` on a non-dict `data` raises
`AttributeError`. -/
def mouseVelocityCheck (s : Stats) (et : JVal) (ts : Option ℚ) (data : JVal) :
    Except PyError Stats :=
  if keyEq et (.str "mouse_move") then
    match data with
    | .obj d =>
      match safeNumber (objGetD d "velocity" .null) with
      | some v =>
        if v > extremeVelocityThreshold then
          .ok { s with extreme_velocity := s.extreme_velocity + 1
                       ex_extreme_velocity := s.ex_extreme_velocity ++ [(ts, v)] }
        else .ok s
      | none => .ok s
    | _ => .error .attributeError
  else .ok s

/-- The two independent negative-timing checks (src/data_analysis.py lines
93-98): one for `dwell_time`, one for `flight_time`; both may fire on the
same line. -/
def negTimingChecks (s : Stats) (dwell flight : Option ℚ) : Stats :=
  let s1 :=
    match dwell with
    | some dv =>
      if dv < 0 then
        { s with negative_dwell_or_flight := s.negative_dwell_or_flight + 1
                 ex_negative_dwell_or_flight :=
                   s.ex_negative_dwell_or_flight ++ [("dwell_time", dv)] }
      else s
    | none => s
  match flight with
  | some fv =>
    if fv < 0 then
      { s1 with negative_dwell_or_flight := s1.negative_dwell_or_flight + 1
                ex_negative_dwell_or_flight :=
                  s1.ex_negative_dwell_or_flight ++ [("flight_time", fv)] }
    else s1
  | none => s1

/-- The negative dwell/flight check dispatch (src/data_analysis.py lines
90-98), run only for `event_type in {"key_press", "key_release"}`; calling
`.get` on a non-dict `data` raises `AttributeError`. -/
def keyTimingCheck (s : Stats) (et : JVal) (data : JVal) : Except PyError Stats :=
  if keyEq et (.str "key_press") || keyEq et (.str "key_release") then
    match data with
    | .obj d =>
      .ok (negTimingChecks s (safeNumber (objGetD d "dwell_time" .null))
            (safeNumber (objGetD d "flight_time" .null)))
    | _ => .error .attributeError
  else .ok s

/-- Processing of one successfully decoded JSON object (src/data_analysis.py
lines 70-98): timestamp coercion and ordering check, event-type
classification, then the `data`-based anomaly checks, with any uncaught
exception propagating. -/
def processValid (s : Stats) (prev : Option ℚ) (kvs : List (String × JVal)) :
    Except PyError (Stats × Option ℚ) :=
  let ts := safeNumber (objGetD kvs "timestamp" .null)
  let sp := orderCheck s prev ts
  let et := objGetD kvs "event_type" (.str "other")
  match countEvent sp.1 et with
  | .error e => .error e
  | .ok s1 =>
    let data := objGetD kvs "data" (.obj [])
    match mouseVelocityCheck s1 et ts data with
    | .error e => .error e
    | .ok s2 =>
      match keyTimingCheck s2 et data with
      | .error e => .error e
      | .ok s3 => .ok (s3, sp.2)

/-- Processing of one line of the file (src/data_analysis.py lines 58-98):
count the line; skip blanks; count decode failures as `invalid_json` and
skip; count decode successes as `valid_json` and analyze. A decoded value
that is not a JSON object raises `AttributeError` at `event.get`. -/
def processLine (st : Stats × Option ℚ) (l : Line) : Except PyError (Stats × Option ℚ) :=
  let s := { st.1 with total_lines := st.1.total_lines + 1 }
  match l with
  | .blank => .ok (s, st.2)
  | .invalid => .ok ({ s with invalid_json := s.invalid_json + 1 }, st.2)
  | .valid v =>
    let s1 := { s with valid_json := s.valid_json + 1 }
    match v with
    | .obj kvs => processValid s1 st.2 kvs
    | _ => .error .attributeError

/-- Embedding of `analyze_log` (src/data_analysis.py lines 21-100) on the
sequence of lines of an already-opened file: a single forward pass threading
`stats` and `previous_ts`; an uncaught Python exception aborts the pass and
propagates (modelled as `Except.error`). -/
def analyze_log (lines : List Line) : Except PyError Stats := do
  let r ← lines.foldlM processLine (initStats, none)
  return r.1

/-!
Collector model (src/data_collector.py).

`time.time()` values are passed as explicit `now : ℚ` arguments. The mutable
per-collector state is the `CollectorState` record; each callback handler is
a function from state and callback arguments to the new state together with
the event it enqueues (or `none` when the move handler suppresses).

`math.hypot(dx, dy)` is the only irrational-valued operation in the source;
it is embedded exactly by working with squares: the source's test
`math.hypot(dx, dy) < 5` is embedded as `dx² + dy² < 25` (equivalent over
exact reals), and the emitted `velocity = distance / dt` is represented by
its square `velocitySq = (dx² + dy²) / dt²`, which determines the
nonnegative velocity uniquely when `dt > 0`.
-/

/-- Embedding of the Python `queue.Queue()` default `maxsize` argument used
in `AdvancedDataCollector.__init__` (src/data_collector.py line 37): the
collector passes no `maxsize`, and `queue.Queue()` defaults to `maxsize = 0`,
meaning the queue is unbounded. -/
def queueMaxsize : ℕ := 0

/-- Embedding of Python `Queue.put_nowait`: raises `queue.Full` (the `error`
case) exactly when `0 < maxsize ≤ qsize()`, otherwise appends the item. -/
def putNowait (maxsize : ℕ) (q : List α) (x : α) : Except Unit (List α) :=
  if 0 < maxsize ∧ maxsize ≤ q.length then .error () else .ok (q ++ [x])

/-- Embedding of `AdvancedDataCollector._enqueue_event` (src/data_collector.py
lines 199-205): `put_nowait` on the collector's queue, with `queue.Full`
caught and the event silently dropped. -/
def enqueue_event (q : List α) (e : α) : List α :=
  match putNowait queueMaxsize q e with
  | .ok q' => q'
  | .error _ => q

/-- Mutable per-collector capture state (src/data_collector.py lines 43-48):
key press times, last key release time, last mouse position, last mouse move
time, last click time. `key_press_times` is a Python dict, modelled as an
association list with unique keys. -/
structure CollectorState : Type where
  key_press_times : List (String × ℚ)
  last_key_release_time : Option ℚ
  last_mouse_pos : Option (ℤ × ℤ)
  last_mouse_move_time : Option ℚ
  last_click_time : Option ℚ

/-- Python dict assignment `d[k] = v`: overwrite the existing entry in place,
or append a new one. -/
def insertKey (m : List (String × ℚ)) (k : String) (v : ℚ) : List (String × ℚ) :=
  match m with
  | [] => [(k, v)]
  | (k', v') :: t => if k' = k then (k, v) :: t else (k', v') :: insertKey t k v

/-- Python `d.pop(k, None)`: return the value of the first entry with key `k`
(or `none`) together with the dict with that entry removed. -/
def popKey (m : List (String × ℚ)) (k : String) : Option ℚ × List (String × ℚ) :=
  match m with
  | [] => (none, [])
  | (k', v) :: t =>
    if k' = k then (some v, t)
    else
      let r := popKey t k
      (r.1, (k', v) :: r.2)

/-- Plain dict lookup on `key_press_times`. -/
def lookupStrQ (m : List (String × ℚ)) (k : String) : Option ℚ :=
  match m with
  | [] => none
  | (k', v) :: t => if k' = k then some v else lookupStrQ t k

/-- The event record enqueued by `_on_press` (src/data_collector.py lines
93-113). -/
structure PressEvent : Type where
  timestamp : ℚ
  key : String
  press_time : ℚ
  flight_time : Option ℚ

/-- The event record enqueued by `_on_release` (src/data_collector.py lines
115-134). -/
structure ReleaseEvent : Type where
  timestamp : ℚ
  key : String
  press_time : Option ℚ
  release_time : ℚ
  dwell_time : Option ℚ

/-- The event record enqueued by `_on_move` (src/data_collector.py lines
154-164). `velocitySq` is the square of the source's `velocity`
(`distance / dt`), the exact-arithmetic representation of the float value;
it is `none` exactly when the source's `velocity` is `None`. -/
structure MoveEvent : Type where
  timestamp : ℚ
  x : ℤ
  y : ℤ
  velocitySq : Option ℚ

/-- Embedding of `AdvancedDataCollector._on_press` (src/data_collector.py
lines 93-113): flight time from the last release (any key), record the press
time, emit the event. -/
def on_press (st : CollectorState) (key : String) (now : ℚ) :
    CollectorState × PressEvent :=
  let flight :=
    match st.last_key_release_time with
    | some r => some (now - r)
    | none => none
  ({ st with key_press_times := insertKey st.key_press_times key now },
   { timestamp := now, key := key, press_time := now, flight_time := flight })

/-- Embedding of `AdvancedDataCollector._on_release` (src/data_collector.py
lines 115-134): pop the matching press time, compute dwell time when it
existed, update the last release time, emit the event. -/
def on_release (st : CollectorState) (key : String) (now : ℚ) :
    CollectorState × ReleaseEvent :=
  let pr := popKey st.key_press_times key
  let dwell :=
    match pr.1 with
    | some p => some (now - p)
    | none => none
  ({ st with key_press_times := pr.2, last_key_release_time := some now },
   { timestamp := now, key := key, press_time := pr.1, release_time := now,
     dwell_time := dwell })

/-- Embedding of `AdvancedDataCollector._on_move` (src/data_collector.py
lines 136-164). With a prior accepted move, suppress (return `none`, state
unchanged) when `dt < 0.1` and `distance < 5` (embedded as
`dx² + dy² < 25`); otherwise emit with `velocitySq = distSq / dt²`
(representing `velocity = distance / dt`) when `dt > 0` and no velocity when
`dt ≤ 0`. The first move emits with no velocity. -/
def on_move (st : CollectorState) (x y : ℤ) (now : ℚ) :
    CollectorState × Option MoveEvent :=
  match st.last_mouse_pos, st.last_mouse_move_time with
  | some p, some pt =>
    let dx := x - p.1
    let dy := y - p.2
    let distSq : ℚ := ((dx * dx + dy * dy : ℤ) : ℚ)
    let dt := now - pt
    if dt < 1 / 10 ∧ distSq < 25 then (st, none)
    else
      let vSq := if 0 < dt then some (distSq / (dt * dt)) else none
      ({ st with last_mouse_pos := some (x, y), last_mouse_move_time := some now },
       some { timestamp := now, x := x, y := y, velocitySq := vSq })
  | _, _ =>
    ({ st with last_mouse_pos := some (x, y), last_mouse_move_time := some now },
     some { timestamp := now, x := x, y := y, velocitySq := none })

/-- Observable life-cycle state of the collector for the `start`/`stop`
guards (src/data_collector.py lines 50-91): the `_running` flag together
with counters of how many writer threads have been started and how many
keyboard/mouse listener registrations have been made. -/
structure CollectorCtl : Type where
  running : Bool
  writer_threads_started : ℕ
  keyboard_registrations : ℕ
  mouse_registrations : ℕ
deriving DecidableEq

/-- Embedding of `AdvancedDataCollector.start` (src/data_collector.py lines
52-72): returns immediately when already running; otherwise sets `_running`,
starts one writer thread and registers one keyboard and one mouse listener. -/
def start (c : CollectorCtl) : CollectorCtl :=
  if c.running then c
  else
    { running := true
      writer_threads_started := c.writer_threads_started + 1
      keyboard_registrations := c.keyboard_registrations + 1
      mouse_registrations := c.mouse_registrations + 1 }

/-- Whether a line is blank after `line.strip()`. -/
def isBlank : Line → Bool
  | .blank => true
  | _ => false

/-- Number of blank lines in a file. -/
def countBlank (lines : List Line) : ℕ :=
  lines.countP (fun l => isBlank l)

/-- Whether an `event_type` value makes `analyze_log` call `.get` on the
line's `data` value (the `mouse_move` and `key_press`/`key_release`
branches, src/data_analysis.py lines 85-92). -/
def relevantType (et : JVal) : Bool :=
  keyEq et (.str "mouse_move") || keyEq et (.str "key_press") ||
    keyEq et (.str "key_release")

/-- Whether a JSON value is an object (a Python dict after decoding). -/
def isObj : JVal → Bool
  | .obj _ => true
  | _ => false

/-- Lines on which `analyze_log`'s body runs without an uncaught exception:
blank lines, undecodable lines, and decoded objects whose `event_type` is
hashable and whose `data` is a mapping whenever the event type makes the
analyzer touch `data`. -/
def lineSafe : Line → Bool
  | .blank => true
  | .invalid => true
  | .valid (.obj kvs) =>
    hashableJ (objGetD kvs "event_type" (.str "other")) &&
      (!relevantType (objGetD kvs "event_type" (.str "other")) ||
        isObj (objGetD kvs "data" (.obj [])))
  | .valid _ => false

/-- Whether an `Except` computation succeeded (the Python call returned
rather than raising). -/
def exceptIsOk : Except PyError β → Bool
  | .ok _ => true
  | .error _ => false

/-- Success projection of an analyzer run: `some (f stats)` when the pass
completed, `none` when it raised. -/
def exceptProj (e : Except PyError Stats) (f : Stats → β) : Option β :=
  match e with
  | .ok s => some (f s)
  | .error _ => none

/-- Error projection of an analyzer run: the uncaught exception, if any. -/
def exceptErr : Except PyError β → Option PyError
  | .ok _ => none
  | .error e => some e

/-!
Helper lemmas about Python dict-key equality and the association-list
operations used by `countEvent`.
-/

theorem keyEq_str_iff (v : JVal) (t : String) : keyEq v (.str t) = true ↔ v = .str t := by
  cases v <;> simp [keyEq, asNum]

theorem keyEq_str_left_iff (t : String) (v : JVal) :
    keyEq (.str t) v = true ↔ v = .str t := by
  cases v <;> simp [keyEq, asNum]
  exact eq_comm

theorem keyEq_refl (q : JVal) (h : hashableJ q = true) : keyEq q q = true := by
  cases q <;> simp_all [keyEq, asNum, hashableJ]

theorem lookupKey_setdefaultKey_self (c : List (JVal × ℕ)) (q : JVal) (d : ℕ)
    (h : hashableJ q = true) :
    lookupKey (setdefaultKey c q d) q = some ((lookupKey c q).getD d) := by
  induction c with
  | nil => simp [setdefaultKey, lookupKey, keyEq_refl q h]
  | cons hd t ih =>
    obtain ⟨k, n⟩ := hd
    by_cases hk : keyEq k q = true
    · simp [setdefaultKey, lookupKey, hk]
    · simp only [Bool.not_eq_true] at hk
      simp [setdefaultKey, lookupKey, hk, ih]

theorem lookupKey_incrKey_self (c : List (JVal × ℕ)) (q : JVal) :
    lookupKey (incrKey c q) q = (lookupKey c q).map (· + 1) := by
  induction c with
  | nil => simp [incrKey, lookupKey]
  | cons hd t ih =>
    obtain ⟨k, n⟩ := hd
    by_cases hk : keyEq k q = true
    · simp [incrKey, lookupKey, hk]
    · simp only [Bool.not_eq_true] at hk
      simp [incrKey, lookupKey, hk, ih]

theorem lookupKey_setdefaultKey_str_ne (c : List (JVal × ℕ)) (q : JVal) (d : ℕ)
    (t : String) (h : q ≠ .str t) :
    lookupKey (setdefaultKey c q d) (.str t) = lookupKey c (.str t) := by
  induction c with
  | nil =>
    have hq : keyEq q (.str t) = false := by
      rcases hq : keyEq q (.str t) with _ | _
      · rfl
      · exact absurd ((keyEq_str_iff q t).mp hq) h
    simp [setdefaultKey, lookupKey, hq]
  | cons hd tl ih =>
    obtain ⟨k, n⟩ := hd
    by_cases hk : keyEq k q = true
    · simp [setdefaultKey, lookupKey, hk]
    · simp only [Bool.not_eq_true] at hk
      simp [setdefaultKey, lookupKey, hk, ih]

theorem lookupKey_incrKey_str_ne (c : List (JVal × ℕ)) (q : JVal)
    (t : String) (h : q ≠ .str t) :
    lookupKey (incrKey c q) (.str t) = lookupKey c (.str t) := by
  induction c with
  | nil => simp [incrKey]
  | cons hd tl ih =>
    obtain ⟨k, n⟩ := hd
    by_cases hk : keyEq k q = true
    · have hkt : keyEq k (.str t) = false := by
        rcases hkt : keyEq k (.str t) with _ | _
        · rfl
        · have hk2 : k = .str t := (keyEq_str_iff k t).mp hkt
          subst hk2
          exact absurd ((keyEq_str_left_iff t q).mp hk) h
      simp [incrKey, lookupKey, hk, hkt]
    · simp only [Bool.not_eq_true] at hk
      simp [incrKey, lookupKey, hk, ih]

theorem memKey_setdefaultKey_self (c : List (JVal × ℕ)) (q : JVal) (d : ℕ)
    (h : hashableJ q = true) :
    memKey (setdefaultKey c q d) q = true := by
  simp [memKey, lookupKey_setdefaultKey_self c q d h]

/-!
Preservation lemmas: the anomaly-checking stages of `analyze_log` never
touch the `total_lines`, `valid_json` and `invalid_json` counters.
-/

theorem orderCheck_preserves (s : Stats) (prev ts : Option ℚ) :
    (orderCheck s prev ts).1.total_lines = s.total_lines ∧
    (orderCheck s prev ts).1.valid_json = s.valid_json ∧
    (orderCheck s prev ts).1.invalid_json = s.invalid_json := by
  cases ts <;> cases prev <;> simp [orderCheck] <;> split <;> simp

theorem countEvent_preserves (s : Stats) (et : JVal) (s' : Stats)
    (h : countEvent s et = .ok s') :
    s'.total_lines = s.total_lines ∧ s'.valid_json = s.valid_json ∧
    s'.invalid_json = s.invalid_json := by
  simp only [countEvent] at h
  split at h
  · split at h <;> (injection h with h; subst h; simp)
  · cases h

theorem negTimingChecks_preserves (s : Stats) (dwell flight : Option ℚ) :
    (negTimingChecks s dwell flight).total_lines = s.total_lines ∧
    (negTimingChecks s dwell flight).valid_json = s.valid_json ∧
    (negTimingChecks s dwell flight).invalid_json = s.invalid_json := by
  cases dwell <;> cases flight <;> simp [negTimingChecks] <;> (repeat' split) <;> simp

theorem mouseVelocityCheck_preserves (s : Stats) (et : JVal) (ts : Option ℚ)
    (data : JVal) (s' : Stats) (h : mouseVelocityCheck s et ts data = .ok s') :
    s'.total_lines = s.total_lines ∧ s'.valid_json = s.valid_json ∧
    s'.invalid_json = s.invalid_json := by
  simp only [mouseVelocityCheck] at h
  repeat' split at h
  all_goals try cases h
  all_goals exact ⟨rfl, rfl, rfl⟩

theorem keyTimingCheck_preserves (s : Stats) (et : JVal) (data : JVal) (s' : Stats)
    (h : keyTimingCheck s et data = .ok s') :
    s'.total_lines = s.total_lines ∧ s'.valid_json = s.valid_json ∧
    s'.invalid_json = s.invalid_json := by
  simp only [keyTimingCheck] at h
  split at h
  · split at h
    · cases h
      exact negTimingChecks_preserves _ _ _
    all_goals cases h
  · cases h
    exact ⟨rfl, rfl, rfl⟩

theorem processValid_preserves (s : Stats) (prev : Option ℚ)
    (kvs : List (String × JVal)) (r : Stats × Option ℚ)
    (h : processValid s prev kvs = .ok r) :
    r.1.total_lines = s.total_lines ∧ r.1.valid_json = s.valid_json ∧
    r.1.invalid_json = s.invalid_json := by
  simp only [processValid] at h
  split at h
  · cases h
  next s1 h1 =>
    split at h
    · cases h
    next s2 h2 =>
      split at h
      · cases h
      next s3 h3 =>
        cases h
        have p0 := orderCheck_preserves s prev (safeNumber (objGetD kvs "timestamp" JVal.null))
        have p1 := countEvent_preserves _ _ _ h1
        have p2 := mouseVelocityCheck_preserves _ _ _ _ _ h2
        have p3 := keyTimingCheck_preserves _ _ _ _ h3
        refine ⟨?_, ?_, ?_⟩
        · show s3.total_lines = s.total_lines
          omega
        · show s3.valid_json = s.valid_json
          omega
        · show s3.invalid_json = s.invalid_json
          omega

/-!
Counting lemmas: one line processed means one `total_lines` tick, and
exactly one of `valid_json`/`invalid_json` ticks unless the line is blank.
-/

theorem exbind_ok {e : Except PyError α} {f : α → Except PyError β} {b : β}
    (h : e >>= f = .ok b) : ∃ a, e = .ok a ∧ f a = .ok b := by
  cases e with
  | error x => simp [Bind.bind, Except.bind] at h
  | ok a => exact ⟨a, rfl, by simpa [Bind.bind, Except.bind] using h⟩

theorem processLine_counts (st : Stats × Option ℚ) (l : Line) (r : Stats × Option ℚ)
    (h : processLine st l = .ok r) :
    r.1.total_lines = st.1.total_lines + 1 ∧
    r.1.valid_json + r.1.invalid_json =
      st.1.valid_json + st.1.invalid_json + (if isBlank l then 0 else 1) := by
  cases l with
  | blank =>
    simp only [processLine] at h
    cases h
    simp [isBlank]
  | invalid =>
    simp only [processLine] at h
    cases h
    simp [isBlank]
    omega
  | valid v =>
    simp only [processLine] at h
    cases v
    case obj kvs =>
      have hp := processValid_preserves _ st.2 kvs r h
      simp at hp
      simp [isBlank]
      omega
    all_goals cases h

theorem foldlM_counts (lines : List Line) :
    ∀ st r, lines.foldlM processLine st = .ok r →
      r.1.total_lines = st.1.total_lines + lines.length ∧
      r.1.valid_json + r.1.invalid_json + countBlank lines =
        st.1.valid_json + st.1.invalid_json + lines.length := by
  induction lines with
  | nil =>
    intro st r h
    simp only [List.foldlM_nil, pure, Except.pure] at h
    cases h
    simp [countBlank]
  | cons l t ih =>
    intro st r h
    rw [List.foldlM_cons] at h
    obtain ⟨st1, h1, h2⟩ := exbind_ok h
    obtain ⟨ha, hb⟩ := processLine_counts st l st1 h1
    obtain ⟨hc, hd⟩ := ih st1 r h2
    refine ⟨by simp; omega, ?_⟩
    have hcb : countBlank (l :: t) = countBlank t + (if isBlank l then 1 else 0) := by
      simp [countBlank, List.countP_cons]
    rw [hcb]
    cases hbl : isBlank l <;> simp [hbl] at hb ⊢ <;> omega

/-!
Totality lemmas: on lines satisfying `lineSafe` the analyzer's per-line body
returns normally.
-/

theorem countEvent_ok (s : Stats) (et : JVal) (h : hashableJ et = true) :
    ∃ s', countEvent s et = .ok s' := by
  simp only [countEvent, h, if_true]
  split <;> exact ⟨_, rfl⟩

theorem mouseVelocityCheck_ok (s : Stats) (et : JVal) (ts : Option ℚ) (data : JVal)
    (h : keyEq et (.str "mouse_move") = true → isObj data = true) :
    ∃ s', mouseVelocityCheck s et ts data = .ok s' := by
  by_cases het : keyEq et (.str "mouse_move") = true
  · cases data with
    | obj d =>
      simp only [mouseVelocityCheck, het, if_true]
      split
      · split <;> exact ⟨_, rfl⟩
      · exact ⟨_, rfl⟩
    | null => exact absurd (h het) (by simp [isObj])
    | bool b => exact absurd (h het) (by simp [isObj])
    | num q => exact absurd (h het) (by simp [isObj])
    | str t => exact absurd (h het) (by simp [isObj])
    | arr xs => exact absurd (h het) (by simp [isObj])
  · simp only [Bool.not_eq_true] at het
    simp only [mouseVelocityCheck, het, Bool.false_eq_true, if_false]
    exact ⟨_, rfl⟩

theorem keyTimingCheck_ok (s : Stats) (et : JVal) (data : JVal)
    (h : (keyEq et (.str "key_press") || keyEq et (.str "key_release")) = true →
         isObj data = true) :
    ∃ s', keyTimingCheck s et data = .ok s' := by
  by_cases het : (keyEq et (.str "key_press") || keyEq et (.str "key_release")) = true
  · cases data with
    | obj d =>
      simp only [keyTimingCheck, het, if_true]
      exact ⟨_, rfl⟩
    | null => exact absurd (h het) (by simp [isObj])
    | bool b => exact absurd (h het) (by simp [isObj])
    | num q => exact absurd (h het) (by simp [isObj])
    | str t => exact absurd (h het) (by simp [isObj])
    | arr xs => exact absurd (h het) (by simp [isObj])
  · simp only [Bool.not_eq_true] at het
    simp only [keyTimingCheck, het, Bool.false_eq_true, if_false]
    exact ⟨_, rfl⟩

theorem processValid_ok (s : Stats) (prev : Option ℚ) (kvs : List (String × JVal))
    (h1 : hashableJ (objGetD kvs "event_type" (.str "other")) = true)
    (h2 : relevantType (objGetD kvs "event_type" (.str "other")) = true →
          isObj (objGetD kvs "data" (.obj [])) = true) :
    ∃ r, processValid s prev kvs = .ok r := by
  obtain ⟨s1, hs1⟩ :=
    countEvent_ok (orderCheck s prev (safeNumber (objGetD kvs "timestamp" JVal.null))).1
      (objGetD kvs "event_type" (.str "other")) h1
  obtain ⟨s2, hs2⟩ :=
    mouseVelocityCheck_ok s1 (objGetD kvs "event_type" (.str "other"))
      (safeNumber (objGetD kvs "timestamp" JVal.null)) (objGetD kvs "data" (.obj []))
      (fun hm => h2 (by simp [relevantType, hm]))
  obtain ⟨s3, hs3⟩ :=
    keyTimingCheck_ok s2 (objGetD kvs "event_type" (.str "other"))
      (objGetD kvs "data" (.obj []))
      (fun hk => h2 (by
        simp only [Bool.or_eq_true] at hk ⊢
        simp only [relevantType, Bool.or_eq_true]
        tauto))
  exact ⟨(s3, (orderCheck s prev (safeNumber (objGetD kvs "timestamp" JVal.null))).2),
    by simp only [processValid, hs1, hs2, hs3]⟩

theorem processLine_ok (st : Stats × Option ℚ) (l : Line) (h : lineSafe l = true) :
    ∃ r, processLine st l = .ok r := by
  cases l with
  | blank => exact ⟨_, rfl⟩
  | invalid => exact ⟨_, rfl⟩
  | valid v =>
    cases v
    case obj kvs =>
      simp only [lineSafe, Bool.and_eq_true, Bool.or_eq_true] at h
      obtain ⟨h1, h2⟩ := h
      simp only [processLine]
      refine processValid_ok _ st.2 kvs h1 ?_
      intro hrel
      rcases h2 with h2 | h2
      · simp [hrel] at h2
      · exact h2
    all_goals simp [lineSafe] at h

theorem foldlM_ok (lines : List Line) :
    ∀ st, lines.all lineSafe = true → ∃ r, lines.foldlM processLine st = .ok r := by
  induction lines with
  | nil => intro st _; exact ⟨st, rfl⟩
  | cons l t ih =>
    intro st h
    simp only [List.all_cons, Bool.and_eq_true] at h
    obtain ⟨r1, hr1⟩ := processLine_ok st l h.1
    obtain ⟨r2, hr2⟩ := ih r1 h.2
    refine ⟨r2, ?_⟩
    rw [List.foldlM_cons, hr1]
    simpa [Bind.bind, Except.bind] using hr2

/-!
Helper lemmas for the collector's `key_press_times` dict.
-/

theorem popKey_fst (m : List (String × ℚ)) (k : String) :
    (popKey m k).1 = lookupStrQ m k := by
  induction m with
  | nil => rfl
  | cons hd t ih =>
    obtain ⟨k', v⟩ := hd
    by_cases hk : k' = k <;> simp [popKey, lookupStrQ, hk, ih]

theorem lookupStrQ_eq_none_of_not_mem (m : List (String × ℚ)) (k : String)
    (h : k ∉ m.map Prod.fst) : lookupStrQ m k = none := by
  induction m with
  | nil => rfl
  | cons hd t ih =>
    obtain ⟨k', v⟩ := hd
    simp only [List.map_cons, List.mem_cons, not_or] at h
    have hne : k' ≠ k := fun hh => h.1 hh.symm
    simp [lookupStrQ, hne, ih h.2]

theorem popKey_snd_self (m : List (String × ℚ)) (k : String)
    (h : (m.map Prod.fst).Nodup) : lookupStrQ (popKey m k).2 k = none := by
  induction m with
  | nil => rfl
  | cons hd t ih =>
    obtain ⟨k', v⟩ := hd
    simp only [List.map_cons, List.nodup_cons] at h
    by_cases hk : k' = k
    · subst hk
      simp only [popKey, if_pos rfl]
      exact lookupStrQ_eq_none_of_not_mem t k' h.1
    · simp [popKey, lookupStrQ, hk, ih h.2]

theorem popKey_snd_other (m : List (String × ℚ)) (k k' : String) (hne : k' ≠ k) :
    lookupStrQ (popKey m k).2 k' = lookupStrQ m k' := by
  induction m with
  | nil => rfl
  | cons hd t ih =>
    obtain ⟨k0, v⟩ := hd
    by_cases hk : k0 = k
    · subst hk
      have h2 : k0 ≠ k' := fun hh => hne hh.symm
      simp [popKey, lookupStrQ, h2]
    · simp [popKey, lookupStrQ, hk, ih]

/-!
Helper lemmas for the hand-off queue.
-/

theorem putNowait_unbounded (q : List α) (e : α) :
    putNowait queueMaxsize q e = .ok (q ++ [e]) := by
  simp [putNowait, queueMaxsize]

theorem enqueue_event_unbounded (q : List α) (e : α) : enqueue_event q e = q ++ [e] := by
  rw [enqueue_event, putNowait_unbounded]

/-!
Claim theorems.
-/

/-- C1 counterexample: `analyze_log` does raise for some malformed content.
A line that is valid JSON but not an object (`5`) raises `AttributeError` at
`event.get`; a `mouse_move` event whose `data` is not a mapping raises
`AttributeError` at `data.get`; an unhashable `event_type` raises
`TypeError` at `setdefault`. -/
theorem analyze_log_raises_on_malformed_counterexample :
    exceptErr (analyze_log [Line.valid (.num 5)]) = some .attributeError ∧
    exceptErr (analyze_log
        [Line.valid (.obj [("event_type", .str "mouse_move"), ("data", .num 1)])]) =
      some .attributeError ∧
    exceptErr (analyze_log [Line.valid (.obj [("event_type", .arr [])])]) =
      some .typeError := by
  refine ⟨by decide, by decide, by decide⟩

/-- C1 (amended): `analyze_log` performs a single pass and returns a stats
value without raising provided every valid JSON line decodes to an object
whose `event_type` is hashable and whose `data` is a mapping whenever the
event type makes the analyzer touch `data`; lines that are blank or fail
JSON decoding never raise, but a valid-JSON non-object line (or a non-mapping
`data` on a `mouse_move`/`key_press`/`key_release` line, or an unhashable
`event_type`) raises an uncaught exception. -/
theorem analyze_log_no_raise_on_safe_lines (lines : List Line)
    (h : lines.all lineSafe = true) : exceptIsOk (analyze_log lines) = true := by
  obtain ⟨r, hr⟩ := foldlM_ok lines (initStats, none) h
  simp [analyze_log, hr, Bind.bind, Except.bind, exceptIsOk, pure, Except.pure]

theorem analyze_log_no_raise_on_safe_lines_witness :
    exceptIsOk (analyze_log [Line.blank, Line.invalid,
      Line.valid (.obj [("event_type", .str "mouse_move"), ("data", .obj [])])]) = true :=
  analyze_log_no_raise_on_safe_lines _ (by decide)

/-- C2 counterexample: a valid line with the unrecognized event type
`"foo"` is not counted under the `other` bucket: `setdefault` has already
inserted a `"foo"` key, so the membership test succeeds and a new dynamic
bucket is incremented while `other` stays at 0. -/
theorem unknown_event_type_not_counted_other_counterexample :
    exceptProj (analyze_log [Line.valid (.obj [("event_type", .str "foo")])])
      (fun s => (lookupKey s.event_counts (.str "other"),
        lookupKey s.event_counts (.str "foo"))) =
      some (some 0, some 1) := by decide

/-- C2 (amended): for every hashable `event_type` value, the classification
step increments that value's own bucket (creating it with `setdefault` when
absent, so an unrecognized type gets a new dynamic bucket rather than
folding into `other`); the `other` bucket is touched only when the value
itself is the string `"other"` - which is also the default used when
`event_type` is missing, so missing types do count under `other`, and each
of the six known labels counts in its own fixed bucket. -/
theorem event_type_classification_amended (s : Stats) (et : JVal)
    (h : hashableJ et = true) :
    countEvent s et =
      .ok { s with event_counts := incrKey (setdefaultKey s.event_counts et 0) et } ∧
    lookupKey (incrKey (setdefaultKey s.event_counts et 0) et) et =
      some ((lookupKey s.event_counts et).getD 0 + 1) ∧
    (et ≠ .str "other" →
      lookupKey (incrKey (setdefaultKey s.event_counts et 0) et) (.str "other") =
        lookupKey s.event_counts (.str "other")) := by
  refine ⟨?_, ?_, ?_⟩
  · simp only [countEvent, h, if_true, memKey_setdefaultKey_self s.event_counts et 0 h]
  · rw [lookupKey_incrKey_self, lookupKey_setdefaultKey_self s.event_counts et 0 h]
    rfl
  · intro hne
    rw [lookupKey_incrKey_str_ne _ _ _ hne, lookupKey_setdefaultKey_str_ne _ _ _ _ hne]

theorem event_type_classification_amended_witness :
    lookupKey (incrKey (setdefaultKey initStats.event_counts (.str "zoo") 0) (.str "zoo"))
      (.str "zoo") = some ((lookupKey initStats.event_counts (.str "zoo")).getD 0 + 1) ∧
    lookupKey (incrKey (setdefaultKey initStats.event_counts (.str "zoo") 0) (.str "zoo"))
      (.str "other") = lookupKey initStats.event_counts (.str "other") :=
  ⟨(event_type_classification_amended initStats (.str "zoo") rfl).2.1,
   (event_type_classification_amended initStats (.str "zoo") rfl).2.2
     (by intro hcon; injection hcon with hs; exact absurd hs (by decide))⟩

/-- C3 counterexample: the hand-off queue is not bounded. The collector
constructs it as `queue.Queue()` with the default `maxsize = 0`, which in
Python means an infinite queue, so `put_nowait` succeeds even on a queue
already holding a million events and nothing is ever at capacity. -/
theorem queue_unbounded_counterexample :
    queueMaxsize = 0 ∧
    putNowait queueMaxsize (List.replicate 1000000 (0 : ℕ)) 0 =
      .ok (List.replicate 1000000 (0 : ℕ) ++ [0]) ∧
    enqueue_event (List.replicate 1000000 (0 : ℕ)) 0 =
      List.replicate 1000000 (0 : ℕ) ++ [0] :=
  ⟨rfl, putNowait_unbounded _ _, enqueue_event_unbounded _ _⟩

/-- C3 (amended): the hand-off queue is unbounded (`queue.Queue()` default
`maxsize = 0`), so `_enqueue_event` never raises and never blocks beyond
enqueue time, and since the queue can never be at capacity `put_nowait`
never raises `queue.Full`: the silent-drop branch is dead code and every
event is appended. -/
theorem enqueue_event_never_raises_never_drops (q : List α) (e : α) :
    putNowait queueMaxsize q e = .ok (q ++ [e]) ∧ enqueue_event q e = q ++ [e] :=
  ⟨putNowait_unbounded q e, enqueue_event_unbounded q e⟩

unseal Rat.add Rat.mul Rat.inv Rat.sub Rat.ofScientific in
/-- C4: the ordering check records a `timestamp_order` anomaly with example
`(previous, current)` exactly when both the current coerced timestamp and
the remembered one exist and current < previous strictly; ties are not
anomalies; a line without a timestamp neither records nor resets; the
remembered value advances only when the line supplies a timestamp. The two
closed conjuncts run `analyze_log` on a file where a timestampless line sits
between 2 and 1 (one anomaly, example `(2, 1)`) and on a tie (no anomaly). -/
theorem timestamp_order_check_exact (s : Stats) (prev ts : Option ℚ) :
    (∀ t p, ts = some t → prev = some p → t < p →
        (orderCheck s prev ts).1.timestamp_order = s.timestamp_order + 1 ∧
        (orderCheck s prev ts).1.ex_timestamp_order = s.ex_timestamp_order ++ [(p, t)]) ∧
    (∀ t p, ts = some t → prev = some p → ¬ t < p → (orderCheck s prev ts).1 = s) ∧
    (ts = none → (orderCheck s prev ts).1 = s ∧ (orderCheck s prev ts).2 = prev) ∧
    (prev = none → (orderCheck s prev ts).1 = s) ∧
    (∀ t, ts = some t → (orderCheck s prev ts).2 = some t) ∧
    exceptProj (analyze_log [Line.valid (.obj [("timestamp", .num 2)]),
        Line.valid (.obj []), Line.valid (.obj [("timestamp", .num 1)])])
      (fun st => (st.timestamp_order, st.ex_timestamp_order)) = some (1, [(2, 1)]) ∧
    exceptProj (analyze_log [Line.valid (.obj [("timestamp", .num 1)]),
        Line.valid (.obj [("timestamp", .num 1)])])
      (fun st => st.timestamp_order) = some 0 := by
  refine ⟨?_, ?_, ?_, ?_, ?_, by decide, by decide⟩
  · rintro t p rfl rfl hlt
    simp [orderCheck, hlt]
  · rintro t p rfl rfl hlt
    simp [orderCheck, hlt]
  · rintro rfl
    cases prev <;> simp [orderCheck]
  · rintro rfl
    cases ts <;> simp [orderCheck]
  · rintro t rfl
    cases prev <;> simp [orderCheck]

theorem timestamp_order_check_exact_witness :
    (orderCheck initStats (some 2) (some 1)).1.timestamp_order =
      initStats.timestamp_order + 1 ∧
    (orderCheck initStats (some 2) (some 1)).1.ex_timestamp_order =
      initStats.ex_timestamp_order ++ [(2, 1)] :=
  (timestamp_order_check_exact initStats (some 2) (some 1)).1 1 2 rfl rfl (by norm_num)

/-- C5: after a prior accepted move, the move handler suppresses (emits
nothing, state unchanged) exactly when `dt < 0.1` and `distance < 5`
(embedded exactly as `dx² + dy² < 25`); otherwise it emits with velocity
present iff `dt > 0` (represented by its square
`(dx² + dy²) / dt²`, which determines `distance / dt` uniquely); the first
move (no prior position or no prior time) always emits with velocity
absent. -/
theorem mouse_move_suppression_exact :
    (∀ (st : CollectorState) (x y px py : ℤ) (now pt : ℚ),
      st.last_mouse_pos = some (px, py) → st.last_mouse_move_time = some pt →
      ((now - pt < 1 / 10 ∧
          (((x - px) * (x - px) + (y - py) * (y - py) : ℤ) : ℚ) < 25) →
        on_move st x y now = (st, none)) ∧
      (¬ (now - pt < 1 / 10 ∧
          (((x - px) * (x - px) + (y - py) * (y - py) : ℤ) : ℚ) < 25) →
        on_move st x y now =
          ({ st with last_mouse_pos := some (x, y), last_mouse_move_time := some now },
            some { timestamp := now, x := x, y := y,
                   velocitySq :=
                     if 0 < now - pt then
                       some ((((x - px) * (x - px) + (y - py) * (y - py) : ℤ) : ℚ) /
                           ((now - pt) * (now - pt)))
                     else none }))) ∧
    (∀ (st : CollectorState) (x y : ℤ) (now : ℚ),
      st.last_mouse_pos = none ∨ st.last_mouse_move_time = none →
      on_move st x y now =
        ({ st with last_mouse_pos := some (x, y), last_mouse_move_time := some now },
          some { timestamp := now, x := x, y := y, velocitySq := none })) := by
  constructor
  · intro st x y px py now pt hpos htime
    constructor
    · intro hcond
      simp only [on_move, hpos, htime]
      rw [if_pos hcond]
    · intro hcond
      simp only [on_move, hpos, htime]
      rw [if_neg hcond]
  · intro st x y now h
    rcases h with h | h
    · simp only [on_move, h]
    · cases hp : st.last_mouse_pos with
      | none => simp only [on_move, hp]
      | some p => simp only [on_move, hp, h]

theorem mouse_move_suppression_exact_witness :
    on_move ⟨[], none, some (0, 0), some 0, none⟩ 1 0 (1 / 100) =
      (⟨[], none, some (0, 0), some 0, none⟩, none) :=
  (mouse_move_suppression_exact.1 ⟨[], none, some (0, 0), some 0, none⟩ 1 0 0 0 (1 / 100) 0
      rfl rfl).1 (by norm_num)

/-- C6: for every input file on which `analyze_log` completes,
`valid_json + invalid_json` equals `total_lines` minus the number of blank
lines (stated both in subtraction-free form and as the literal
subtraction). -/
theorem valid_invalid_blank_balance (lines : List Line) (s : Stats)
    (h : analyze_log lines = .ok s) :
    s.valid_json + s.invalid_json + countBlank lines = s.total_lines ∧
    s.valid_json + s.invalid_json = s.total_lines - countBlank lines := by
  unfold analyze_log at h
  obtain ⟨r, h1, h2⟩ := exbind_ok h
  simp only [pure, Except.pure] at h2
  cases h2
  obtain ⟨ht, hv⟩ := foldlM_counts lines _ r h1
  simp [initStats] at ht hv
  omega

theorem valid_invalid_blank_balance_witness :
    (0 : ℕ) + 1 + countBlank [Line.blank, Line.invalid] = 2 ∧
    (0 : ℕ) + 1 = 2 - countBlank [Line.blank, Line.invalid] :=
  valid_invalid_blank_balance [Line.blank, Line.invalid]
    { initStats with total_lines := 2, invalid_json := 1 } rfl

unseal Rat.add Rat.mul Rat.inv Rat.sub Rat.ofScientific in
/-- C7: for `key_press`/`key_release` lines, a numeric negative
`data.dwell_time` records one `negative_dwell_or_flight` anomaly tagged
`"dwell_time"`, and independently a numeric negative `data.flight_time`
records a separate one tagged `"flight_time"`; other event types run
neither check; the closed conjunct runs the spec's scenario (`dwell_time`
-3 and `flight_time` -1 on one line) and gets count 2 with two distinct
examples. -/
theorem negative_dwell_flight_independent_checks :
    (∀ (s : Stats) (dwell flight : Option ℚ),
      (negTimingChecks s dwell flight).negative_dwell_or_flight =
        s.negative_dwell_or_flight +
          (match dwell with | some d => if d < 0 then 1 else 0 | none => 0) +
          (match flight with | some f => if f < 0 then 1 else 0 | none => 0) ∧
      (negTimingChecks s dwell flight).ex_negative_dwell_or_flight =
        s.ex_negative_dwell_or_flight ++
          (match dwell with
            | some d => if d < 0 then [("dwell_time", d)] else []
            | none => []) ++
          (match flight with
            | some f => if f < 0 then [("flight_time", f)] else []
            | none => [])) ∧
    (∀ (s : Stats) (d : List (String × JVal)) (et : JVal),
      (keyEq et (.str "key_press") || keyEq et (.str "key_release")) = true →
      keyTimingCheck s et (.obj d) =
        .ok (negTimingChecks s (safeNumber (objGetD d "dwell_time" .null))
          (safeNumber (objGetD d "flight_time" .null)))) ∧
    (∀ (s : Stats) (et data : JVal),
      (keyEq et (.str "key_press") || keyEq et (.str "key_release")) = false →
      keyTimingCheck s et data = .ok s) ∧
    exceptProj (analyze_log [Line.valid (.obj [("event_type", .str "key_release"),
        ("data", .obj [("dwell_time", .num (-3)), ("flight_time", .num (-1))])])])
      (fun s => (s.negative_dwell_or_flight, s.ex_negative_dwell_or_flight)) =
      some (2, [("dwell_time", -3), ("flight_time", -1)]) := by
  refine ⟨?_, ?_, ?_, by decide⟩
  · intro s dwell flight
    cases dwell <;> cases flight <;> constructor <;>
      simp [negTimingChecks] <;> (repeat' split) <;> simp
  · intro s d et h
    simp [keyTimingCheck, h]
  · intro s et data h
    simp [keyTimingCheck, h]

theorem negative_dwell_flight_independent_checks_witness :
    keyTimingCheck initStats (.str "mouse_scroll") (.num 0) = .ok initStats :=
  negative_dwell_flight_independent_checks.2.2.1 initStats (.str "mouse_scroll")
    (.num 0) rfl

/-- C8: on key release, the emitted event carries
`dwell_time = now - pressTimes[key]` exactly when an unmatched press for the
same key identity was recorded (and `press_time` is that recorded value),
and no dwell time otherwise; the handler removes the matching
`pressTimes` entry (leaving all other keys untouched) and sets
`lastKeyReleaseTime` to `now` in both cases. -/
theorem release_dwell_time_exact (st : CollectorState) (key : String) (now : ℚ)
    (hnd : (st.key_press_times.map Prod.fst).Nodup) :
    ((on_release st key now).2.dwell_time =
      (lookupStrQ st.key_press_times key).map (fun p => now - p)) ∧
    ((on_release st key now).2.press_time = lookupStrQ st.key_press_times key) ∧
    lookupStrQ (on_release st key now).1.key_press_times key = none ∧
    (∀ k', k' ≠ key →
      lookupStrQ (on_release st key now).1.key_press_times k' =
        lookupStrQ st.key_press_times k') ∧
    (on_release st key now).1.last_key_release_time = some now := by
  refine ⟨?_, ?_, ?_, ?_, rfl⟩
  · simp only [on_release]
    rw [popKey_fst]
    cases lookupStrQ st.key_press_times key <;> rfl
  · simp only [on_release]
    exact popKey_fst _ _
  · simp only [on_release]
    exact popKey_snd_self _ _ hnd
  · intro k' hk
    simp only [on_release]
    exact popKey_snd_other _ _ _ hk

theorem release_dwell_time_exact_witness :
    (on_release ⟨[("a", (1 : ℚ))], none, none, none, none⟩ "a" 3).2.dwell_time =
      (lookupStrQ [("a", (1 : ℚ))] "a").map (fun p => (3 : ℚ) - p) ∧
    lookupStrQ
      (on_release ⟨[("a", (1 : ℚ))], none, none, none, none⟩ "a" 3).1.key_press_times
      "a" = none :=
  ⟨(release_dwell_time_exact ⟨[("a", 1)], none, none, none, none⟩ "a" 3 (by simp)).1,
   (release_dwell_time_exact ⟨[("a", 1)], none, none, none, none⟩ "a" 3 (by simp)).2.2.1⟩

/-- C9: `start()` is idempotent: a second call while already running is a
no-op, creating no second writer thread and registering no second set of
device callbacks; after any `start` the collector is running. -/
theorem start_idempotent :
    (∀ c : CollectorCtl, start (start c) = start c) ∧
    (∀ c : CollectorCtl,
      (start (start c)).writer_threads_started = (start c).writer_threads_started ∧
      (start (start c)).keyboard_registrations = (start c).keyboard_registrations ∧
      (start (start c)).mouse_registrations = (start c).mouse_registrations) ∧
    (∀ c : CollectorCtl, (start c).running = true) := by
  have hss : ∀ c : CollectorCtl, start (start c) = start c := by
    intro c
    by_cases h : c.running = true <;> simp [start, h]
  refine ⟨hss, fun c => ?_, fun c => ?_⟩
  · rw [hss c]
    exact ⟨rfl, rfl, rfl⟩
  · by_cases h : c.running = true <;> simp [start, h]

unseal Rat.add Rat.mul Rat.inv Rat.sub Rat.ofScientific in
/-- C10: `_safe_number` is exactly as permissive as Python's `float()`:
every `float()`-convertible value (numbers, booleans, numeric strings such
as `"12.5"`) coerces to its float, and only `None` and values `float()`
rejects coerce to absent; the closed conjunct shows a string timestamp
`"12.5"` participating in the ordering check (anomaly against previous 20)
and a string velocity `"60000.5"` participating in the extreme-velocity
check. -/
theorem safe_number_permissive_coercion :
    (∀ v : JVal, safeNumber v = pyFloat v) ∧
    (∀ s : String, safeNumber (.str s) = pyFloatOfString s) ∧
    safeNumber (.str "12.5") = some (25 / 2) ∧
    safeNumber (.bool true) = some 1 ∧
    safeNumber (.bool false) = some 0 ∧
    safeNumber .null = none ∧
    (∀ xs : List JVal, safeNumber (.arr xs) = none) ∧
    (∀ kvs : List (String × JVal), safeNumber (.obj kvs) = none) ∧
    exceptProj (analyze_log [Line.valid (.obj [("timestamp", .num 20)]),
        Line.valid (.obj [("timestamp", .str "12.5")]),
        Line.valid (.obj [("event_type", .str "mouse_move"),
          ("data", .obj [("velocity", .str "60000.5")])])])
      (fun s => (s.timestamp_order, s.ex_timestamp_order, s.extreme_velocity)) =
      some (1, [(20, 25 / 2)], 1) := by
  refine ⟨fun v => ?_, fun s => rfl, by decide, rfl, rfl, rfl, fun xs => rfl,
    fun kvs => rfl, by decide⟩
  cases v <;> rfl
